import Mathlib

/-!
Verification of the Conway's Game of Life core engine (`CGL.py`).

The grid is the Python value `grid : list of lists of int` (rows of cells,
0 = DEAD, 1 = ALIVE).  The functions below are shallow embeddings of the
source functions, keeping the source's names:

* `check_neighbour`            — `CGL.py` lines 1024-1100,
* `calculate_next_generation`  — `CGL.py` lines 971-1021,
* `create_next_generation`     — `CGL.py` lines 1103-1143,
* `apply_seed`                 — `CGL.py` lines 797-815,
* `create_grid`                — the grid-building loop of `create_simulation`
                                 (`CGL.py` lines 686-688),
* `save_seed_to_file` / `load_seed_from_file` — `CGL.py` lines 755-794 and
                                 152-202 (the text codec, modelled on lines).

Python list indexing is embedded faithfully: `l[i]` wraps for
`-len l ≤ i < 0` and raises `IndexError` (here: `none`) outside
`[-len l, len l)`.  This matters: the source's `try/except IndexError`
in `check_neighbour` does NOT catch the negative indices produced at the
top and left edges, so those edges wrap around.
-/

namespace CGL

/-- Python list read `l[i]`: a non-negative index is used directly, a
negative index `i` with `-len l ≤ i` wraps to `len l + i`, anything else
raises `IndexError` (modelled as `none`). -/
def pyIdx? {α : Type} (l : List α) (i : Int) : Option α :=
  if 0 ≤ i then l[i.toNat]?
  else if 0 ≤ i + l.length then l[(i + l.length).toNat]?
  else none

/-- A grid as in the source: a list of rows, each row a list of cell values
(`0` = DEAD, `1` = ALIVE). -/
abbrev Grid := List (List Nat)

/-- The value of cell `(y, x)` of the grid (`grid[y][x]` for in-bounds
non-negative coordinates; reads `0` outside the grid — only used at
in-bounds positions in the theorems). -/
def cellAt (grid : Grid) (y x : Nat) : Nat :=
  (grid[y]?.bind fun row => row[x]?).getD 0

/-- Length of row `y` (0 when `y` is out of range). -/
def rowLen (grid : Grid) (y : Nat) : Nat :=
  (grid[y]?.map List.length).getD 0

/-- Embedding of `check_neighbour(y, x, i, grid)` (`CGL.py` 1024-1100):
reads the
neighbour of `(y, x)` in direction `i` (0 = N, 1 = NE, ..., 7 = NW) as
`grid[y+dy][x+dx]` with Python indexing, returning 0 when the read raises
`IndexError` (the source's `try/except IndexError`).  Directions outside
0..7 fall through in the source (never called); we return 0 there. -/
def check_neighbour (y x : Nat) (i : Nat) (grid : Grid) : Nat :=
  let nb : Int → Int → Nat := fun dy dx =>
    (((pyIdx? grid ((y : Int) + dy)).bind fun row =>
        pyIdx? row ((x : Int) + dx)).getD 0)
  if i = 0 then nb (-1) 0
  else if i = 1 then nb (-1) 1
  else if i = 2 then nb 0 1
  else if i = 3 then nb 1 1
  else if i = 4 then nb 1 0
  else if i = 5 then nb 1 (-1)
  else if i = 6 then nb 0 (-1)
  else if i = 7 then nb (-1) (-1)
  else 0

/-- The `living_neighbours` accumulation of `calculate_next_generation`
(`CGL.py` 994-998): the sum of `check_neighbour` over the 8 directions. -/
def livingNeighbours (grid : Grid) (y x : Nat) : Nat :=
  (List.range 8).foldl (fun acc i => acc + check_neighbour y x i grid) 0

/-- The cell `(y, x)` is currently ALIVE: the source's test
`grid[y][x] == 1` (`CGL.py` 1003). -/
def isAliveCell (grid : Grid) (c : Nat × Nat) : Bool :=
  cellAt grid c.1 c.2 == 1

/-- The starvation/overpopulation test of `CGL.py` 1008:
`living_neighbours < 2 or living_neighbours > 3`. -/
def badCount (grid : Grid) (c : Nat × Nat) : Bool :=
  decide (livingNeighbours grid c.1 c.2 < 2) ||
    decide (livingNeighbours grid c.1 c.2 > 3)

/-- A currently-ALIVE cell scheduled for the kill list. -/
def willDie (grid : Grid) (c : Nat × Nat) : Bool :=
  isAliveCell grid c && badCount grid c

/-- A currently-DEAD cell scheduled for the revive list
(`living_neighbours == 3`, `CGL.py` 1014). -/
def willSpawn (grid : Grid) (c : Nat × Nat) : Bool :=
  !isAliveCell grid c && (livingNeighbours grid c.1 c.2 == 3)

/-- The cells visited by the nested loops of `calculate_next_generation`
(`for y in range(len(grid)): for x in range(len(grid[y])):`), in visit
order. -/
def allCells (grid : Grid) : List (Nat × Nat) :=
  (List.range grid.length).flatMap fun y =>
    (List.range (rowLen grid y)).map fun x => (y, x)

/-- One iteration of the cell loop body of `calculate_next_generation`
(`CGL.py` 1001-1016): an ALIVE cell bumps the living counter and is
appended to the kill list when its neighbour count is bad; a DEAD cell is
appended to the revive list when its neighbour count is exactly 3. -/
def cngStep (grid : Grid) (acc : List (Nat × Nat) × List (Nat × Nat) × Nat)
    (c : Nat × Nat) : List (Nat × Nat) × List (Nat × Nat) × Nat :=
  let (kills, revives, living) := acc
  if isAliveCell grid c then
    if badCount grid c then (kills ++ [c], revives, living + 1)
    else (kills, revives, living + 1)
  else
    if livingNeighbours grid c.1 c.2 == 3 then (kills, revives ++ [c], living)
    else (kills, revives, living)

/-- Embedding of `calculate_next_generation(grid)` (`CGL.py` 971-1021):
scans every
cell of the (unmodified) grid and returns
`(cells_to_be_killed, cells_to_be_revived, living_cells_before_next_generation)`. -/
def calculate_next_generation (grid : Grid) :
    List (Nat × Nat) × List (Nat × Nat) × Nat :=
  (allCells grid).foldl (cngStep grid) ([], [], 0)

/-- Python assignment `grid[y][x] = v` for non-negative coordinates:
fails (`IndexError`, modelled as `none`) when `y` or `x` is out of
range. -/
def setCell? (grid : Grid) (y x v : Nat) : Option Grid :=
  match grid[y]? with
  | none => none
  | some row => if x < row.length then some (grid.set y (row.set x v)) else none

/-- A sequence of Python assignments `grid[y][x] = v`, one per coordinate,
as in the two loops of `create_next_generation`; stops with an error at the
first out-of-range coordinate. -/
def setCells? (v : Nat) : Grid → List (Nat × Nat) → Option Grid
  | grid, [] => some grid
  | grid, c :: rest =>
    match setCell? grid c.1 c.2 v with
    | some g => setCells? v g rest
    | none => none

/-- Embedding of
`create_next_generation(grid, cells_to_be_killed, cells_to_be_revived)`
(`CGL.py` 1103-1143): first sets every kill coordinate to 0, then sets
every revive coordinate to 1 (in that order). -/
def create_next_generation (grid : Grid) (kills revives : List (Nat × Nat)) :
    Option Grid :=
  (setCells? 0 grid kills).bind fun g => setCells? 1 g revives

/-- One step of the simulation loop of `run_simulation` (`CGL.py` 877-882):
`calculate_next_generation` followed by `create_next_generation` on the
same grid. -/
def step_commit (grid : Grid) : Option Grid :=
  let r := calculate_next_generation grid
  create_next_generation grid r.1 r.2.1

/-- Embedding of `apply_seed(grid, seed)` (`CGL.py` 797-815): sets
`grid[y][x] = 1` for
each seed coordinate in order.  An out-of-range coordinate raises an
uncaught `IndexError`; the `Except.error` case carries the grid as already
mutated by the preceding coordinates (Python mutates in place). -/
def apply_seed : Grid → List (Nat × Nat) → Except Grid Grid
  | grid, [] => .ok grid
  | grid, c :: rest =>
    match setCell? grid c.1 c.2 1 with
    | some g => apply_seed g rest
    | none => .error grid

/-- The grid-building loop of `create_simulation` (`CGL.py` 686-688):
`for i in range(canvas_height): grid.append([0] * canvas_width)`.
Python `range(h)` is empty for `h ≤ 0` and `[0] * w` is `[]` for `w ≤ 0`
(hence `Int.toNat`).  No dimension validation is performed by the
source. -/
def create_grid (h w : Int) : Grid :=
  (List.range h.toNat).map fun _ => List.replicate w.toNat 0

/-! ### The seed file codec

`save_seed_to_file` (`CGL.py` 755-794) writes one line `[h, w]` and then
one line `str([y, x])` per seed cell; `load_seed_from_file`
(`CGL.py` 152-202) strips the characters `'`, newline, `[`, `]` and space
from each line, splits on `,` and parses the two fields with `int`.
A file is modelled as its list of lines, a line as its list of
characters (including the trailing newline the source writes). -/

/-- The decimal rendering of a natural number, as produced by Python
`str(n)` for `n ≥ 0`: its base-10 digits, most significant first
(`"0"` for 0). -/
def natChars (n : Nat) : List Char :=
  if n = 0 then ['0'] else (Nat.digits 10 n).reverse.map Nat.digitChar

/-- One line of a seed file as `save_seed_to_file` writes it:
`"[" + str(a) + ", " + str(b) + "]" + "\n"` (Python `str([a, b])` plus the
newline of `file.write("%s\n" % cell)`). -/
def saveLine (c : Nat × Nat) : List Char :=
  '[' :: (natChars c.1 ++ ',' :: ' ' :: natChars c.2 ++ [']', '\n'])

/-- Embedding of `save_seed_to_file(current_seed, canvas_height, canvas_width)`
(`CGL.py` 755-794), as the list of lines written: the dimension header
followed by one line per seed cell, in order. -/
def save_seed_to_file (seed : List (Nat × Nat)) (h w : Nat) :
    List (List Char) :=
  saveLine (h, w) :: seed.map saveLine

/-- The per-line cleaning of `load_seed_from_file` (`CGL.py` 178-183):
`line.replace(c, "")` for the apostrophe (`Char.ofNat 39`), newline, `[`,
`]` and space, i.e. dropping every occurrence of those five characters. -/
def stripChars (l : List Char) : List Char :=
  l.filter fun c =>
    !(c == Char.ofNat 39 || c == '\n' || c == '[' || c == ']' || c == ' ')

/-- Python `s.split(",")`: splits on every comma; the empty string yields
`[""]`. -/
def splitComma : List Char → List (List Char)
  | [] => [[]]
  | c :: rest =>
    if c = ',' then [] :: splitComma rest
    else
      match splitComma rest with
      | [] => [[c]]
      | p :: ps => (c :: p) :: ps

/-- Python `int(s)` restricted to the non-negative coordinates of the data
model: succeeds exactly on a non-empty all-digit string, producing its
decimal value; anything else raises `ValueError` (modelled as `none`). -/
def parseNat? (l : List Char) : Option Nat :=
  if l ≠ [] ∧ l.all Char.isDigit then
    some (l.foldl (fun acc c => acc * 10 + (c.toNat - 48)) 0)
  else none

/-- The per-line parse of `load_seed_from_file` (`CGL.py` 178-188): clean
the line, split on commas, take `int(cell[0])` and `int(cell[1])`
(`IndexError` when there are fewer than two fields, `ValueError` on
non-integer fields — both modelled as `none`). -/
def parseLine (l : List Char) : Option (Nat × Nat) :=
  match splitComma (stripChars l) with
  | p0 :: p1 :: _ =>
    (parseNat? p0).bind fun y => (parseNat? p1).map fun x => (y, x)
  | _ => none

/-- The loop of `load_seed_from_file` over the non-header lines: each line
becomes a seed coordinate, in file order, stopping at the first malformed
line. -/
def parseLines : List (List Char) → Option (List (Nat × Nat))
  | [] => some []
  | l :: rest => (parseLine l).bind fun c => (parseLines rest).map (c :: ·)

/-- Embedding of `load_seed_from_file` (`CGL.py` 152-202), on a file given as its list
of lines: line 0 yields `(canvas_height, canvas_width)`, every later line
one seed coordinate.  An empty file leaves `canvas_height` unbound in the
source (`NameError`), modelled as `none`. -/
def load_seed_from_file (lines : List (List Char)) :
    Option (Nat × Nat × List (Nat × Nat)) :=
  match lines with
  | [] => none
  | l0 :: rest =>
    (parseLine l0).bind fun hw =>
      (parseLines rest).map fun coords => (hw.1, hw.2, coords)

/-! ### Spec-side definitions

These are written from the specification's words, not from the source;
they are only compared against the source embedding. -/

/-- The rule table of spec §4.1: an ALIVE cell (1) with neighbour count
below 2 or above 3 becomes DEAD (0) and otherwise stays ALIVE; a DEAD cell
with count exactly 3 becomes ALIVE and otherwise stays DEAD. -/
def lifeRule (s n : Nat) : Nat :=
  if s = 1 then (if n < 2 ∨ 3 < n then 0 else 1)
  else (if n = 3 then 1 else 0)

/-- Spec-side bounded read: the cell value at integer coordinates, 0 for
any position outside the grid ("treating any neighbor position outside
grid bounds as DEAD"). -/
def boundedCell (grid : Grid) (i j : Int) : Nat :=
  if 0 ≤ i ∧ i < grid.length ∧ 0 ≤ j ∧ j < rowLen grid i.toNat then
    cellAt grid i.toNat j.toNat
  else 0

/-- The neighbour count as the SPEC states it (§4.1): ALIVE cells among
the 8 adjacent positions, every out-of-bounds position contributing 0
(hard, non-wrapping boundary).  For comparison with the code's
`check_neighbour`/`livingNeighbours`. -/
def specLivingNeighbours (grid : Grid) (y x : Nat) : Nat :=
  (([((-1 : Int), (0 : Int)), (-1, 1), (0, 1), (1, 1),
      (1, 0), (1, -1), (0, -1), (-1, -1)]).map fun d =>
    boundedCell grid ((y : Int) + d.1) ((x : Int) + d.2)).sum

/-- The number of ALIVE cells of a grid (cells holding 1). -/
def aliveCount (grid : Grid) : Nat :=
  (grid.map fun row => row.countP (· == 1)).sum

/-- Every cell of the grid holds 0 (DEAD) or 1 (ALIVE). -/
def ValidGrid (grid : Grid) : Prop :=
  ∀ row ∈ grid, ∀ v ∈ row, v = 0 ∨ v = 1

/-- Two grids have the same dimensions: same number of rows and the same
length for each row. -/
def SameShape (g g' : Grid) : Prop :=
  g.length = g'.length ∧ ∀ y, rowLen g y = rowLen g' y

/-! ### Basic lemmas on indexed access -/

theorem getD_map_range {α : Type} (l : List α) (d : α) :
    (List.range l.length).map (fun i => l.getD i d) = l := by
  induction l with
  | nil => rfl
  | cons a t ih =>
    rw [List.length_cons, List.range_succ_eq_map, List.map_cons, List.map_map]
    simp only [List.getD_cons_zero, Function.comp_def, Nat.succ_eq_add_one,
      List.getD_cons_succ]
    rw [ih]

theorem map_getD_range {α β : Type} (l : List α) (d : α) (F : α → β) :
    (List.range l.length).map (fun i => F (l.getD i d)) = l.map F := by
  conv_rhs => rw [← getD_map_range l d]
  rw [List.map_map]
  rfl

theorem countP_getD_range {α : Type} (row : List α) (d : α) (p : α → Bool) :
    List.countP (fun x => p (row.getD x d)) (List.range row.length) =
      row.countP p := by
  conv_rhs => rw [← getD_map_range row d]
  rw [List.countP_map]
  rfl

theorem getD_set {α : Type} (l : List α) (i : Nat) (a d : α)
    (hi : i < l.length) (j : Nat) :
    (l.set i a).getD j d = if j = i then a else l.getD j d := by
  rw [List.getD_eq_getElem?_getD, List.getD_eq_getElem?_getD,
    List.getElem?_set]
  by_cases h : i = j
  · subst h
    simp [hi]
  · rw [if_neg h, if_neg fun hh => h hh.symm]

theorem rowLen_eq_getD (grid : Grid) (y : Nat) :
    rowLen grid y = (grid.getD y []).length := by
  unfold rowLen
  rw [List.getD_eq_getElem?_getD]
  cases grid[y]? <;> rfl

theorem cellAt_eq_getD (grid : Grid) (y x : Nat) :
    cellAt grid y x = (grid.getD y []).getD x 0 := by
  unfold cellAt
  rw [List.getD_eq_getElem?_getD, List.getD_eq_getElem?_getD]
  cases grid[y]? <;> simp

theorem mem_allCells {grid : Grid} {y x : Nat} :
    (y, x) ∈ allCells grid ↔ y < grid.length ∧ x < rowLen grid y := by
  unfold allCells
  simp only [List.mem_flatMap, List.mem_map, List.mem_range, Prod.mk.injEq]
  constructor
  · rintro ⟨a, ha, b, hb, rfl, rfl⟩
    exact ⟨ha, hb⟩
  · rintro ⟨hy, hx⟩
    exact ⟨y, hy, x, hx, rfl, rfl⟩

/-! ### The scan of `calculate_next_generation` as filters and a count -/

theorem cngStep_eq (grid : Grid) (k r : List (Nat × Nat)) (n : Nat)
    (c : Nat × Nat) :
    cngStep grid (k, r, n) c =
      (k ++ if willDie grid c then [c] else [],
       r ++ if willSpawn grid c then [c] else [],
       n + if isAliveCell grid c then 1 else 0) := by
  unfold cngStep willDie willSpawn
  by_cases ha : isAliveCell grid c
  · by_cases hb : badCount grid c <;> simp [ha, hb]
  · by_cases h3 : livingNeighbours grid c.1 c.2 == 3 <;> simp [ha, h3]

theorem foldl_cngStep (grid : Grid) (l : List (Nat × Nat)) :
    ∀ (k r : List (Nat × Nat)) (n : Nat),
      l.foldl (cngStep grid) (k, r, n) =
        (k ++ l.filter (willDie grid), r ++ l.filter (willSpawn grid),
          n + l.countP (isAliveCell grid)) := by
  induction l with
  | nil => intro k r n; simp
  | cons c t ih =>
    intro k r n
    rw [List.foldl_cons, cngStep_eq, ih, List.filter_cons, List.filter_cons,
      List.countP_cons]
    by_cases hd : willDie grid c <;> by_cases hs : willSpawn grid c <;>
      by_cases ha : isAliveCell grid c <;>
        simp [hd, hs, ha, List.append_assoc] <;> omega

theorem calculate_eq (grid : Grid) :
    calculate_next_generation grid =
      ((allCells grid).filter (willDie grid),
       (allCells grid).filter (willSpawn grid),
       (allCells grid).countP (isAliveCell grid)) := by
  unfold calculate_next_generation
  rw [foldl_cngStep]
  simp

/-! ### Effect of the in-place cell assignments -/

theorem lt_of_getElem?_some {α : Type} {l : List α} {i : Nat} {a : α}
    (h : l[i]? = some a) : i < l.length := by
  by_contra hc
  rw [List.getElem?_eq_none (Nat.le_of_not_lt hc)] at h
  cases h

theorem setCell?_eq_some {grid : Grid} {y : Nat} {row : List Nat}
    (hy : grid[y]? = some row) {x : Nat} (v : Nat) (hx : x < row.length) :
    setCell? grid y x v = some (grid.set y (row.set x v)) := by
  unfold setCell?
  rw [hy]
  simp [hx]

theorem rowLen_set_row {grid : Grid} {y : Nat} {row : List Nat}
    (hy : grid[y]? = some row) (r : List Nat) (hlen : r.length = row.length)
    (y' : Nat) : rowLen (grid.set y r) y' = rowLen grid y' := by
  have hylt : y < grid.length := lt_of_getElem?_some hy
  unfold rowLen
  rw [List.getElem?_set]
  by_cases h : y = y'
  · subst h
    simp [hylt, hy, hlen]
  · rw [if_neg h]

theorem cellAt_set_row {grid : Grid} {y : Nat} {row : List Nat}
    (hy : grid[y]? = some row) {x : Nat} (v : Nat) (hx : x < row.length)
    (y' x' : Nat) :
    cellAt (grid.set y (row.set x v)) y' x' =
      if y' = y ∧ x' = x then v else cellAt grid y' x' := by
  have hylt : y < grid.length := lt_of_getElem?_some hy
  unfold cellAt
  rw [List.getElem?_set]
  by_cases h : y = y'
  · subst h
    rw [if_pos rfl, if_pos hylt]
    simp only [Option.some_bind]
    rw [List.getElem?_set]
    by_cases hxx : x = x'
    · subst hxx
      simp [hx, hy]
    · rw [if_neg hxx, if_neg fun hc => hxx hc.2.symm, hy]
      simp
  · rw [if_neg h, if_neg fun hc => h hc.1.symm]

theorem row_of_bounds {grid : Grid} {y x : Nat} (hy : y < grid.length)
    (hx : x < rowLen grid y) :
    ∃ row, grid[y]? = some row ∧ x < row.length := by
  refine ⟨grid[y], List.getElem?_eq_getElem hy, ?_⟩
  have : rowLen grid y = grid[y].length := by
    unfold rowLen
    rw [List.getElem?_eq_getElem hy]
    rfl
  rw [this] at hx
  exact hx

theorem setCells?_eq (v : Nat) (coords : List (Nat × Nat)) :
    ∀ grid : Grid,
      (∀ c ∈ coords, c.1 < grid.length ∧ c.2 < rowLen grid c.1) →
      ∃ g, setCells? v grid coords = some g ∧ SameShape g grid ∧
        ∀ y x, cellAt g y x =
          if (y, x) ∈ coords then v else cellAt grid y x := by
  induction coords with
  | nil =>
    intro grid _
    exact ⟨grid, rfl, ⟨rfl, fun _ => rfl⟩, by simp⟩
  | cons c t ih =>
    intro grid hb
    obtain ⟨hy, hx⟩ := hb c (List.mem_cons_self c t)
    obtain ⟨row, hrow, hxr⟩ := row_of_bounds hy hx
    have hset := setCell?_eq_some hrow v hxr
    have hsh1 : SameShape (grid.set c.1 (row.set c.2 v)) grid :=
      ⟨List.length_set grid c.1 _,
        fun y => rowLen_set_row hrow _ (List.length_set row c.2 v) y⟩
    have hb' : ∀ c' ∈ t, c'.1 < (grid.set c.1 (row.set c.2 v)).length ∧
        c'.2 < rowLen (grid.set c.1 (row.set c.2 v)) c'.1 := by
      intro c' hc'
      obtain ⟨h1, h2⟩ := hb c' (List.mem_cons_of_mem c hc')
      exact ⟨hsh1.1 ▸ h1, (hsh1.2 c'.1) ▸ h2⟩
    obtain ⟨g, hgeq, hgs, hgc⟩ := ih (grid.set c.1 (row.set c.2 v)) hb'
    refine ⟨g, ?_, ⟨hgs.1.trans hsh1.1, fun y => (hgs.2 y).trans (hsh1.2 y)⟩, ?_⟩
    · unfold setCells?
      rw [hset]
      exact hgeq
    · intro y x
      rw [hgc y x, cellAt_set_row hrow v hxr y x]
      by_cases hmem : (y, x) ∈ t
      · simp [hmem]
      · rw [if_neg hmem]
        by_cases hc : (y, x) = c
        · subst hc
          simp
        · have h1 : ¬(y = c.1 ∧ x = c.2) := by
            intro h2
            exact hc (Prod.ext_iff.mpr ⟨h2.1, h2.2⟩)
          rw [if_neg h1, if_neg (by simp [List.mem_cons, hc, hmem])]

theorem create_next_generation_eq (grid : Grid)
    (kills revives : List (Nat × Nat))
    (hk : ∀ c ∈ kills, c.1 < grid.length ∧ c.2 < rowLen grid c.1)
    (hr : ∀ c ∈ revives, c.1 < grid.length ∧ c.2 < rowLen grid c.1) :
    ∃ g, create_next_generation grid kills revives = some g ∧
      SameShape g grid ∧
      ∀ y x, cellAt g y x =
        if (y, x) ∈ revives then 1
        else if (y, x) ∈ kills then 0 else cellAt grid y x := by
  obtain ⟨g1, h1, hs1, hc1⟩ := setCells?_eq 0 kills grid hk
  obtain ⟨g2, h2, hs2, hc2⟩ := setCells?_eq 1 revives g1 (by
    intro c hc
    obtain ⟨ha, hb⟩ := hr c hc
    exact ⟨hs1.1 ▸ ha, (hs1.2 c.1) ▸ hb⟩)
  refine ⟨g2, ?_,
    ⟨hs2.1.trans hs1.1, fun y => (hs2.2 y).trans (hs1.2 y)⟩, ?_⟩
  · unfold create_next_generation
    rw [h1]
    simpa using h2
  · intro y x
    rw [hc2 y x, hc1 y x]

/-! ### One full step: scan then commit -/

theorem allCells_eq_of_shape {g grid : Grid} (h : SameShape g grid) :
    allCells g = allCells grid := by
  unfold allCells
  have hf : (fun y => (List.range (rowLen g y)).map fun x => (y, x)) =
      fun y => (List.range (rowLen grid y)).map fun x => (y, x) :=
    funext fun y => by rw [h.2 y]
  rw [hf, h.1]

theorem calc_kills_bounds (grid : Grid) :
    ∀ c ∈ (calculate_next_generation grid).1,
      c.1 < grid.length ∧ c.2 < rowLen grid c.1 := by
  intro c hc
  rw [calculate_eq] at hc
  obtain ⟨y, x⟩ := c
  exact mem_allCells.mp (List.mem_filter.mp hc).1

theorem calc_revives_bounds (grid : Grid) :
    ∀ c ∈ (calculate_next_generation grid).2.1,
      c.1 < grid.length ∧ c.2 < rowLen grid c.1 := by
  intro c hc
  rw [calculate_eq] at hc
  obtain ⟨y, x⟩ := c
  exact mem_allCells.mp (List.mem_filter.mp hc).1

theorem step_commit_eq (grid : Grid) :
    ∃ g, step_commit grid = some g ∧ SameShape g grid ∧
      ∀ y x, y < grid.length → x < rowLen grid y →
        cellAt g y x =
          if willSpawn grid (y, x) then 1
          else if willDie grid (y, x) then 0 else cellAt grid y x := by
  obtain ⟨g, hg, hs, hc⟩ := create_next_generation_eq grid
    (calculate_next_generation grid).1 (calculate_next_generation grid).2.1
    (calc_kills_bounds grid) (calc_revives_bounds grid)
  refine ⟨g, hg, hs, ?_⟩
  intro y x hy hx
  rw [hc y x]
  have hmem : (y, x) ∈ allCells grid := mem_allCells.mpr ⟨hy, hx⟩
  by_cases hsp : willSpawn grid (y, x)
  · simp [calculate_eq, List.mem_filter, hmem, hsp]
  · by_cases hdi : willDie grid (y, x)
    · simp [calculate_eq, List.mem_filter, hmem, hsp, hdi]
    · simp [calculate_eq, List.mem_filter, hsp, hdi]

/-! ### Counting ALIVE cells -/

theorem countP_allCells (grid : Grid) (p : Nat → Bool) :
    List.countP (fun c => p (cellAt grid c.1 c.2)) (allCells grid) =
      (grid.map fun row => row.countP p).sum := by
  unfold allCells
  rw [List.countP_flatMap,
    ← map_getD_range grid [] (fun row => row.countP p)]
  congr 1
  apply List.map_congr_left
  intro y hy
  simp only [Function.comp_def, List.countP_map, cellAt_eq_getD]
  rw [rowLen_eq_getD, countP_getD_range]

theorem countP_isAlive (grid : Grid) :
    List.countP (isAliveCell grid) (allCells grid) = aliveCount grid := by
  unfold isAliveCell aliveCount
  exact countP_allCells grid (· == 1)

theorem countP_balance {α : Type} (l : List α) (p q r s : α → Bool)
    (h : ∀ a ∈ l, (p a).toNat + (q a).toNat = (r a).toNat + (s a).toNat) :
    l.countP p + l.countP q = l.countP r + l.countP s := by
  induction l with
  | nil => simp
  | cons a t ih =>
    have ha := h a (List.mem_cons_self a t)
    have ht := ih fun b hb => h b (List.mem_cons_of_mem a hb)
    simp only [List.countP_cons]
    cases hp : p a <;> cases hq : q a <;> cases hr : r a <;> cases hs : s a <;>
      simp only [hp, hq, hr, hs, Bool.toNat_true, Bool.toNat_false] at ha ⊢ <;>
        omega

/-! ### Preservation of the 0/1 invariant and of the dimensions -/

theorem sameShape_trans {g1 g2 g3 : Grid} (h12 : SameShape g1 g2)
    (h23 : SameShape g2 g3) : SameShape g1 g3 :=
  ⟨h12.1.trans h23.1, fun y => (h12.2 y).trans (h23.2 y)⟩

theorem setCell?_cases {grid g : Grid} {y x v : Nat}
    (h : setCell? grid y x v = some g) :
    ∃ row, grid[y]? = some row ∧ x < row.length ∧
      g = grid.set y (row.set x v) := by
  unfold setCell? at h
  split at h
  · cases h
  · next row hrow =>
    split at h
    · next hx =>
      injection h with h
      exact ⟨row, hrow, hx, h.symm⟩
    · cases h

theorem setCell?_valid {grid g : Grid} {y x v : Nat} (hv01 : v = 0 ∨ v = 1)
    (hval : ValidGrid grid) (h : setCell? grid y x v = some g) :
    ValidGrid g ∧ SameShape g grid := by
  obtain ⟨row, hy, hx, rfl⟩ := setCell?_cases h
  have hrowmem : row ∈ grid :=
    List.get?_mem (by rw [List.get?_eq_getElem?]; exact hy)
  constructor
  · intro r hr v' hv'
    rcases List.mem_or_eq_of_mem_set hr with hr' | rfl
    · exact hval r hr' v' hv'
    · rcases List.mem_or_eq_of_mem_set hv' with hv'' | rfl
      · exact hval row hrowmem v' hv''
      · exact hv01
  · exact ⟨List.length_set grid y _,
      fun y' => rowLen_set_row hy _ (List.length_set row x v) y'⟩

theorem setCells?_valid (v : Nat) (hv01 : v = 0 ∨ v = 1)
    (coords : List (Nat × Nat)) :
    ∀ grid g : Grid, ValidGrid grid → setCells? v grid coords = some g →
      ValidGrid g ∧ SameShape g grid := by
  induction coords with
  | nil =>
    intro grid g hval h
    injection h with h
    subst h
    exact ⟨hval, rfl, fun _ => rfl⟩
  | cons c t ih =>
    intro grid g hval h
    unfold setCells? at h
    cases hs : setCell? grid c.1 c.2 v with
    | none => rw [hs] at h; cases h
    | some g1 =>
      rw [hs] at h
      obtain ⟨hval1, hsh1⟩ := setCell?_valid hv01 hval hs
      obtain ⟨hval2, hsh2⟩ := ih g1 g hval1 h
      exact ⟨hval2, sameShape_trans hsh2 hsh1⟩

theorem create_next_generation_valid (grid : Grid)
    (kills revives : List (Nat × Nat)) (g : Grid) (hval : ValidGrid grid)
    (h : create_next_generation grid kills revives = some g) :
    ValidGrid g ∧ SameShape g grid := by
  unfold create_next_generation at h
  cases h1 : setCells? 0 grid kills with
  | none => rw [h1] at h; cases h
  | some g1 =>
    rw [h1] at h
    simp only [Option.some_bind] at h
    obtain ⟨hval1, hsh1⟩ := setCells?_valid 0 (Or.inl rfl) kills grid g1 hval h1
    obtain ⟨hval2, hsh2⟩ := setCells?_valid 1 (Or.inr rfl) revives g1 g hval1 h
    exact ⟨hval2, sameShape_trans hsh2 hsh1⟩

theorem apply_seed_valid (seed : List (Nat × Nat)) :
    ∀ grid : Grid, ValidGrid grid →
      (∀ g, apply_seed grid seed = .ok g → ValidGrid g ∧ SameShape g grid) ∧
      (∀ g, apply_seed grid seed = .error g →
        ValidGrid g ∧ SameShape g grid) := by
  induction seed with
  | nil =>
    intro grid hval
    constructor
    · intro g h
      injection h with h
      subst h
      exact ⟨hval, rfl, fun _ => rfl⟩
    · intro g h
      cases h
  | cons c t ih =>
    intro grid hval
    constructor
    · intro g h
      unfold apply_seed at h
      cases hs : setCell? grid c.1 c.2 1 with
      | none => rw [hs] at h; cases h
      | some g1 =>
        rw [hs] at h
        obtain ⟨hval1, hsh1⟩ := setCell?_valid (Or.inr rfl) hval hs
        obtain ⟨hval2, hsh2⟩ := (ih g1 hval1).1 g h
        exact ⟨hval2, sameShape_trans hsh2 hsh1⟩
    · intro g h
      unfold apply_seed at h
      cases hs : setCell? grid c.1 c.2 1 with
      | none =>
        rw [hs] at h
        injection h with h
        subst h
        exact ⟨hval, rfl, fun _ => rfl⟩
      | some g1 =>
        rw [hs] at h
        obtain ⟨hval1, hsh1⟩ := setCell?_valid (Or.inr rfl) hval hs
        obtain ⟨hval2, hsh2⟩ := (ih g1 hval1).2 g h
        exact ⟨hval2, sameShape_trans hsh2 hsh1⟩

/-! ### `apply_seed` on a well-formed seed and at the first bad coordinate -/

theorem apply_seed_cons_some {grid g2 : Grid} {c : Nat × Nat}
    (hs : setCell? grid c.1 c.2 1 = some g2) (rest : List (Nat × Nat)) :
    apply_seed grid (c :: rest) = apply_seed g2 rest := by
  conv_lhs => unfold apply_seed
  rw [hs]

theorem apply_seed_cons_none {grid : Grid} {c : Nat × Nat}
    (hs : setCell? grid c.1 c.2 1 = none) (rest : List (Nat × Nat)) :
    apply_seed grid (c :: rest) = .error grid := by
  conv_lhs => unfold apply_seed
  rw [hs]

theorem apply_seed_append (pre : List (Nat × Nat)) :
    ∀ (grid g1 : Grid), setCells? 1 grid pre = some g1 →
      ∀ rest, apply_seed grid (pre ++ rest) = apply_seed g1 rest := by
  induction pre with
  | nil =>
    intro grid g1 h rest
    injection h with h
    subst h
    rfl
  | cons c t ih =>
    intro grid g1 h rest
    unfold setCells? at h
    cases hs : setCell? grid c.1 c.2 1 with
    | none => rw [hs] at h; cases h
    | some g2 =>
      rw [hs] at h
      rw [List.cons_append, apply_seed_cons_some hs]
      exact ih g2 g1 h rest

/-! ### Round-trip of the seed file codec -/

theorem digitChar_isDigit : ∀ d, d < 10 → (Nat.digitChar d).isDigit = true := by
  decide

theorem digitChar_toNat : ∀ d, d < 10 → (Nat.digitChar d).toNat - 48 = d := by
  decide

theorem digitChar_ne_comma : ∀ d, d < 10 → Nat.digitChar d ≠ ',' := by
  decide

theorem digitChar_kept : ∀ d, d < 10 →
    (!(Nat.digitChar d == Char.ofNat 39 || Nat.digitChar d == '\n' ||
      Nat.digitChar d == '[' || Nat.digitChar d == ']' ||
      Nat.digitChar d == ' ')) = true := by
  decide

theorem natChars_mem {n : Nat} {c : Char} (hc : c ∈ natChars n) :
    c = '0' ∨ ∃ d, d < 10 ∧ c = Nat.digitChar d := by
  unfold natChars at hc
  by_cases h0 : n = 0
  · rw [if_pos h0] at hc
    simp at hc
    exact Or.inl hc
  · rw [if_neg h0] at hc
    simp only [List.mem_map, List.mem_reverse] at hc
    obtain ⟨d, hd, rfl⟩ := hc
    exact Or.inr ⟨d, Nat.digits_lt_base (by norm_num) hd, rfl⟩

theorem natChars_isDigit (n : Nat) : ∀ c ∈ natChars n, c.isDigit = true := by
  intro c hc
  rcases natChars_mem hc with rfl | ⟨d, hd, rfl⟩
  · decide
  · exact digitChar_isDigit d hd

theorem natChars_ne_comma (n : Nat) : ∀ c ∈ natChars n, c ≠ ',' := by
  intro c hc
  rcases natChars_mem hc with rfl | ⟨d, hd, rfl⟩
  · decide
  · exact digitChar_ne_comma d hd

theorem natChars_kept (n : Nat) : ∀ c ∈ natChars n,
    (!(c == Char.ofNat 39 || c == '\n' || c == '[' || c == ']' ||
      c == ' ')) = true := by
  intro c hc
  rcases natChars_mem hc with rfl | ⟨d, hd, rfl⟩
  · decide
  · exact digitChar_kept d hd

theorem natChars_ne_nil (n : Nat) : natChars n ≠ [] := by
  unfold natChars
  by_cases h0 : n = 0
  · simp [h0]
  · simp [h0, Nat.digits_ne_nil_iff_ne_zero]

theorem stripChars_saveLine (a b : Nat) :
    stripChars (saveLine (a, b)) = natChars a ++ ',' :: natChars b := by
  unfold stripChars saveLine
  rw [List.filter_cons]
  simp only [List.filter_append, List.filter_cons]
  rw [List.filter_eq_self.mpr (natChars_kept a),
    List.filter_eq_self.mpr (natChars_kept b)]
  simp

theorem splitComma_no_comma (l : List Char) (h : ∀ c ∈ l, c ≠ ',') :
    splitComma l = [l] := by
  induction l with
  | nil => rfl
  | cons c t ih =>
    unfold splitComma
    rw [if_neg (h c (List.mem_cons_self c t)),
      ih fun d hd => h d (List.mem_cons_of_mem c hd)]

theorem splitComma_append (l1 l2 : List Char) (h1 : ∀ c ∈ l1, c ≠ ',') :
    splitComma (l1 ++ ',' :: l2) = l1 :: splitComma l2 := by
  induction l1 with
  | nil =>
    show splitComma (',' :: l2) = [] :: splitComma l2
    conv_lhs => unfold splitComma
    rw [if_pos rfl]
  | cons c t ih =>
    rw [List.cons_append]
    conv_lhs => unfold splitComma
    rw [if_neg (h1 c (List.mem_cons_self c t)),
      ih fun d hd => h1 d (List.mem_cons_of_mem c hd)]

theorem foldl_digitChars (L : List Nat) (hL : ∀ d ∈ L, d < 10) (acc : Nat) :
    (L.reverse.map Nat.digitChar).foldl
        (fun a c => a * 10 + (c.toNat - 48)) acc =
      Nat.ofDigits 10 L + acc * 10 ^ L.length := by
  induction L generalizing acc with
  | nil => simp
  | cons d ds ih =>
    rw [List.reverse_cons, List.map_append, List.foldl_append]
    have hd : d < 10 := hL d (List.mem_cons_self d ds)
    rw [ih fun e he => hL e (List.mem_cons_of_mem d he)]
    simp only [List.map_cons, List.map_nil, List.foldl_cons, List.foldl_nil]
    rw [digitChar_toNat d hd, Nat.ofDigits_cons, List.length_cons, pow_succ]
    ring

theorem parseNat?_natChars (n : Nat) : parseNat? (natChars n) = some n := by
  by_cases h0 : n = 0
  · subst h0
    decide
  · unfold parseNat?
    rw [if_pos ⟨natChars_ne_nil n, List.all_eq_true.mpr (natChars_isDigit n)⟩]
    unfold natChars
    rw [if_neg h0]
    rw [foldl_digitChars (Nat.digits 10 n)
      (fun d hd => Nat.digits_lt_base (by norm_num) hd) 0]
    rw [Nat.ofDigits_digits]
    simp

theorem parseLine_saveLine (a b : Nat) : parseLine (saveLine (a, b)) = some (a, b) := by
  unfold parseLine
  rw [stripChars_saveLine, splitComma_append _ _ (natChars_ne_comma a),
    splitComma_no_comma _ (natChars_ne_comma b)]
  simp [parseNat?_natChars]

theorem parseLines_saveLines (seed : List (Nat × Nat)) :
    parseLines (seed.map saveLine) = some seed := by
  induction seed with
  | nil => rfl
  | cons c t ih =>
    obtain ⟨a, b⟩ := c
    simp [parseLines, parseLine_saveLine, ih]

/-! ### The claims -/

/-- Claim C1 (confirmed): for every grid of 0/1 cells and every in-bounds
cell, one `calculate_next_generation` followed by `create_next_generation`
gives the cell the value of the §4.1 rule table applied to its pre-step
neighbour count (the count the scan computes on the unmodified pre-step
grid): ALIVE with count < 2 or > 3 becomes DEAD, ALIVE with count 2 or 3
stays ALIVE, DEAD with count 3 becomes ALIVE, any other DEAD cell stays
DEAD. -/
theorem step_rule_table (grid : Grid) (hv : ValidGrid grid) (y x : Nat)
    (hy : y < grid.length) (hx : x < rowLen grid y) :
    ∃ g, step_commit grid = some g ∧
      cellAt g y x = lifeRule (cellAt grid y x) (livingNeighbours grid y x) := by
  obtain ⟨g, hg, _, hc⟩ := step_commit_eq grid
  refine ⟨g, hg, ?_⟩
  rw [hc y x hy hx]
  have hcell : cellAt grid y x = 0 ∨ cellAt grid y x = 1 := by
    obtain ⟨row, hrow, hxr⟩ := row_of_bounds hy hx
    have hrm : row ∈ grid :=
      List.get?_mem (by rw [List.get?_eq_getElem?]; exact hrow)
    have hcv : cellAt grid y x = row[x] := by
      unfold cellAt
      rw [hrow]
      simp [List.getElem?_eq_getElem hxr]
    rw [hcv]
    exact hv row hrm _ (List.getElem_mem hxr)
  rcases hcell with h0 | h1
  · have hdi : willDie grid (y, x) = false := by
      unfold willDie isAliveCell
      simp [h0]
    by_cases h3 : livingNeighbours grid y x = 3
    · have hsp : willSpawn grid (y, x) = true := by
        unfold willSpawn isAliveCell
        simp [h0, h3]
      simp [lifeRule, h0, h3, hsp]
    · have hsp : willSpawn grid (y, x) = false := by
        unfold willSpawn isAliveCell
        simp [h3]
      simp [lifeRule, h0, h3, hsp, hdi]
  · have hsp : willSpawn grid (y, x) = false := by
      unfold willSpawn isAliveCell
      simp [h1]
    by_cases hb : livingNeighbours grid y x < 2 ∨ 3 < livingNeighbours grid y x
    · have hdi : willDie grid (y, x) = true := by
        unfold willDie isAliveCell badCount
        rcases hb with hb | hb <;> simp [h1, hb]
      simp [lifeRule, h1, hsp, hdi, hb]
    · have hdi : willDie grid (y, x) = false := by
        unfold willDie isAliveCell badCount
        have h2 : ¬livingNeighbours grid y x < 2 := fun h => hb (Or.inl h)
        have h3 : ¬3 < livingNeighbours grid y x := fun h => hb (Or.inr h)
        simp [h2, h3]
      simp [lifeRule, h1, hsp, hdi, hb]

/-- Witness for claim C1: a lone ALIVE cell in the middle of a 3×3 grid. -/
theorem step_rule_table_witness :
    ∃ g, step_commit [[0, 0, 0], [0, 1, 0], [0, 0, 0]] = some g ∧
      cellAt g 1 1 = lifeRule (cellAt [[0, 0, 0], [0, 1, 0], [0, 0, 0]] 1 1)
        (livingNeighbours [[0, 0, 0], [0, 1, 0], [0, 0, 0]] 1 1) :=
  step_rule_table [[0, 0, 0], [0, 1, 0], [0, 0, 0]]
    (by unfold ValidGrid; decide) 1 1 (by decide) (by decide)

/-- Claim C2 (code bug): the boundary is NOT hard on the top and left edges.
In the 2×2 grid `[[0,0],[1,0]]` with only cell (1,0) ALIVE, the north
neighbour of cell (0,0) lies at `y - 1 < 0`, which the claim says
contributes 0; the source evaluates `grid[-1][0]`, which Python wraps to
the bottom row (`try/except IndexError` does not catch negative indices),
so `check_neighbour` returns 1 and the full count is 2 instead of the
spec's 1. -/
theorem check_neighbour_wraps :
    check_neighbour 0 0 0 [[0, 0], [1, 0]] = 1 ∧
    livingNeighbours [[0, 0], [1, 0]] 0 0 = 2 ∧
    specLivingNeighbours [[0, 0], [1, 0]] 0 0 = 1 := by
  decide

/-- Claim C3 (code bug): spontaneous generation does occur at the grid edge.
In the 3×3 grid whose bottom row is ALIVE, cell (0,0) is DEAD and has no
ALIVE cell among its in-grid neighbours (spec count 0), yet after one
step + commit it is ALIVE: its wrapped neighbours `grid[-1][0]`,
`grid[-1][-1]` and (for (0,1)) `grid[-1][1]` are read from the bottom
row, giving it a code count of 3. -/
theorem spontaneous_generation_at_edge :
    cellAt [[0, 0, 0], [0, 0, 0], [1, 1, 1]] 0 0 = 0 ∧
    specLivingNeighbours [[0, 0, 0], [0, 0, 0], [1, 1, 1]] 0 0 = 0 ∧
    step_commit [[0, 0, 0], [0, 0, 0], [1, 1, 1]] =
      some [[1, 1, 0], [1, 1, 0], [1, 1, 0]] ∧
    cellAt [[1, 1, 0], [1, 1, 0], [1, 1, 0]] 0 0 = 1 := by
  decide

/-- Claim C4 (confirmed): the third component returned by
`calculate_next_generation` is the number of ALIVE cells of the pre-step
grid, and the ALIVE count after the commit equals
`living_count_before + |to_revive| - |to_kill|` (the expression
`run_simulation` reports). -/
theorem living_count_correct (grid : Grid) :
    (calculate_next_generation grid).2.2 = aliveCount grid ∧
    ∀ g, step_commit grid = some g →
      (aliveCount g : ℤ) = (aliveCount grid : ℤ)
        + (calculate_next_generation grid).2.1.length
        - (calculate_next_generation grid).1.length := by
  constructor
  · rw [calculate_eq]
    exact countP_isAlive grid
  · intro g hg
    obtain ⟨g', hg', hs, hc⟩ := step_commit_eq grid
    rw [hg] at hg'
    injection hg' with he
    subst he
    have hag : aliveCount g = List.countP (isAliveCell g) (allCells grid) := by
      rw [← allCells_eq_of_shape hs, countP_isAlive]
    have hbal : List.countP (isAliveCell g) (allCells grid)
        + List.countP (willDie grid) (allCells grid)
        = List.countP (isAliveCell grid) (allCells grid)
        + List.countP (willSpawn grid) (allCells grid) := by
      apply countP_balance
      intro c hcmem
      obtain ⟨y, x⟩ := c
      obtain ⟨hy, hx⟩ := mem_allCells.mp hcmem
      rw [show isAliveCell g (y, x) = (cellAt g y x == 1) from rfl,
        hc y x hy hx]
      by_cases hsp : willSpawn grid (y, x)
      · have hna : isAliveCell grid (y, x) = false := by
          have h' := hsp
          unfold willSpawn at h'
          simp only [Bool.and_eq_true, Bool.not_eq_true'] at h'
          exact h'.1
        have hdi : willDie grid (y, x) = false := by
          unfold willDie
          rw [hna]
          rfl
        simp [hsp, hna, hdi]
      · by_cases hdi : willDie grid (y, x)
        · have hya : isAliveCell grid (y, x) = true := by
            have h' := hdi
            unfold willDie at h'
            simp only [Bool.and_eq_true] at h'
            exact h'.1
          simp [hsp, hdi, hya]
        · simp [hsp, hdi, isAliveCell]
    have hk : (calculate_next_generation grid).1.length
        = List.countP (willDie grid) (allCells grid) := by
      rw [calculate_eq]
      simp [List.countP_eq_length_filter]
    have hr2 : (calculate_next_generation grid).2.1.length
        = List.countP (willSpawn grid) (allCells grid) := by
      rw [calculate_eq]
      simp [List.countP_eq_length_filter]
    rw [hag, hk, hr2, ← countP_isAlive grid]
    omega

/-- Witness for claim C4: the bottom-row blinker, whose commit leaves 6
ALIVE cells = 3 + 4 − 1. -/
theorem living_count_correct_witness :
    (aliveCount [[1, 1, 0], [1, 1, 0], [1, 1, 0]] : ℤ)
      = (aliveCount [[0, 0, 0], [0, 0, 0], [1, 1, 1]] : ℤ)
        + (calculate_next_generation [[0, 0, 0], [0, 0, 0], [1, 1, 1]]).2.1.length
        - (calculate_next_generation [[0, 0, 0], [0, 0, 0], [1, 1, 1]]).1.length :=
  (living_count_correct [[0, 0, 0], [0, 0, 0], [1, 1, 1]]).2
    [[1, 1, 0], [1, 1, 0], [1, 1, 0]] (by decide)

/-- Counterexample to claim C5 as stated: with `to_kill = to_revive = [(0,0)]`
(both in bounds) on the 1×1 grid `[[0]]`, the committed grid holds 1 at
(0,0) — the revive loop runs after the kill loop — so the coordinate in
`to_kill` is not DEAD afterwards as the claim requires. -/
theorem commit_overlap_cex :
    create_next_generation [[0]] [(0, 0)] [(0, 0)] = some [[1]] ∧
    cellAt [[1]] 0 0 ≠ 0 := by
  decide

/-- Claim C5 (corrected): for in-bounds kill/revive lists,
`create_next_generation` sets every revive coordinate to ALIVE, sets every
kill coordinate that is not also a revive coordinate to DEAD (revives are
written after kills, so a coordinate in both lists ends ALIVE), and leaves
every other cell and the grid's dimensions unchanged. -/
theorem commit_sets_cells (grid : Grid) (kills revives : List (Nat × Nat))
    (hk : ∀ c ∈ kills, c.1 < grid.length ∧ c.2 < rowLen grid c.1)
    (hr : ∀ c ∈ revives, c.1 < grid.length ∧ c.2 < rowLen grid c.1) :
    ∃ g, create_next_generation grid kills revives = some g ∧
      SameShape g grid ∧
      ∀ y x, cellAt g y x =
        if (y, x) ∈ revives then 1
        else if (y, x) ∈ kills then 0 else cellAt grid y x :=
  create_next_generation_eq grid kills revives hk hr

/-- Witness for claim C5: kill (0,1) and revive (1,1) on `[[0,1],[1,0]]`. -/
theorem commit_sets_cells_witness :
    ∃ g, create_next_generation [[0, 1], [1, 0]] [(0, 1)] [(1, 1)] = some g ∧
      SameShape g [[0, 1], [1, 0]] ∧
      ∀ y x, cellAt g y x =
        if (y, x) ∈ ([(1, 1)] : List (Nat × Nat)) then 1
        else if (y, x) ∈ ([(0, 1)] : List (Nat × Nat)) then 0
        else cellAt [[0, 1], [1, 0]] y x :=
  commit_sets_cells [[0, 1], [1, 0]] [(0, 1)] [(1, 1)] (by decide) (by decide)

/-- Claim C6 (confirmed): encoding any seed (any list of non-negative
coordinate pairs, duplicates and order included) with any dimensions and
decoding the resulting lines reproduces the dimensions and the seed
exactly — the round-trip law. -/
theorem seed_roundtrip (seed : List (Nat × Nat)) (h w : Nat) :
    load_seed_from_file (save_seed_to_file seed h w) = some (h, w, seed) := by
  unfold save_seed_to_file load_seed_from_file
  simp [parseLine_saveLine, parseLines_saveLines]

/-- Counterexample to claim C8 as stated: on the 1×1 grid `[[0]]`, the seed
`[(0,0), (1,0)]` contains the out-of-bounds coordinate (1,0)
(`row == height`), and `apply_seed` does fail — but the grid is NOT left
unmodified: the in-bounds coordinate (0,0) processed before the failure
has already been set ALIVE, leaving `[[1]] ≠ [[0]]`. -/
theorem apply_seed_not_atomic :
    apply_seed [[0]] [(0, 0), (1, 0)] = .error [[1]] ∧
    ([[1]] : Grid) ≠ [[0]] := by
  constructor
  · rfl
  · decide

/-- Claim C8 (corrected): `apply_seed` on a seed whose first out-of-bounds
coordinate has `row ≥ height` fails (uncaught `IndexError`), with the grid
mutated exactly on the seed's preceding prefix: every prefix coordinate is
ALIVE, every other cell and the dimensions are unchanged.  In particular
the grid is unmodified only when the bad coordinate comes first. -/
theorem apply_seed_error_state (grid : Grid) (pre post : List (Nat × Nat))
    (y x : Nat)
    (hpre : ∀ c ∈ pre, c.1 < grid.length ∧ c.2 < rowLen grid c.1)
    (hy : grid.length ≤ y) :
    ∃ g, apply_seed grid (pre ++ (y, x) :: post) = .error g ∧
      SameShape g grid ∧
      ∀ y' x', cellAt g y' x' =
        if (y', x') ∈ pre then 1 else cellAt grid y' x' := by
  obtain ⟨g1, hset, hshape, hcell⟩ := setCells?_eq 1 pre grid hpre
  refine ⟨g1, ?_, hshape, hcell⟩
  rw [apply_seed_append pre grid g1 hset]
  have hnone : setCell? g1 y x 1 = none := by
    unfold setCell?
    rw [List.getElem?_eq_none (by rw [hshape.1]; exact hy)]
  rw [apply_seed_cons_none hnone]

/-- Witness for claim C8: seed `[(0,0), (1,0)]` on the 1×2 grid `[[0,0]]`. -/
theorem apply_seed_error_state_witness :
    ∃ g, apply_seed [[0, 0]] ([(0, 0)] ++ (1, 0) :: []) = .error g ∧
      SameShape g [[0, 0]] ∧
      ∀ y' x', cellAt g y' x' =
        if (y', x') ∈ ([(0, 0)] : List (Nat × Nat)) then 1
        else cellAt [[0, 0]] y' x' :=
  apply_seed_error_state [[0, 0]] [(0, 0)] [] 1 0 (by decide) (by decide)

/-- Counterexample to claim C9 as stated: the source never raises an
`InvalidDimension` error — the grid-building loop is total.  With
`height = 0` (and with negative height) it silently returns a grid with no
rows, and with `width = 0` it returns `height` empty rows. -/
theorem create_grid_no_validation :
    create_grid 0 3 = ([] : Grid) ∧ create_grid (-2) 5 = ([] : Grid) ∧
    create_grid 3 0 = ([[], [], []] : Grid) := by
  decide

/-- Claim C9 (corrected): `create_simulation`'s grid construction performs no
dimension validation and never fails: it always returns
`max h 0` rows, each a row of `max w 0` DEAD cells — so for positive
dimensions exactly `h × w` all-DEAD cells, and degenerate empty grids for
non-positive dimensions instead of an `InvalidDimension` error. -/
theorem create_grid_spec (h w : Int) :
    create_grid h w = List.replicate h.toNat (List.replicate w.toNat 0) ∧
    (create_grid h w).length = h.toNat ∧
    ∀ row ∈ create_grid h w, row.length = w.toNat ∧ ∀ v ∈ row, v = 0 := by
  have h1 : create_grid h w
      = List.replicate h.toNat (List.replicate w.toNat 0) := by
    unfold create_grid
    rw [List.eq_replicate_iff]
    constructor
    · rw [List.length_map, List.length_range]
    · intro b hb
      rcases List.mem_map.mp hb with ⟨i, _, hbi⟩
      exact hbi.symm
  refine ⟨h1, ?_, ?_⟩
  · rw [h1, List.length_replicate]
  · intro row hrow
    rw [h1] at hrow
    have hr := List.eq_of_mem_replicate hrow
    subst hr
    exact ⟨List.length_replicate _ _, fun v hv => List.eq_of_mem_replicate hv⟩

/-- Witness for claim C9: a 2×3 grid. -/
theorem create_grid_spec_witness :
    (create_grid 2 3).length = (2 : Int).toNat ∧
    ([0, 0, 0] : List Nat).length = (3 : Int).toNat ∧
    ∀ v ∈ ([0, 0, 0] : List Nat), v = 0 :=
  ⟨(create_grid_spec 2 3).2.1,
    (create_grid_spec 2 3).2.2 [0, 0, 0] (by decide)⟩

/-- Claim C10 (confirmed): every core operation preserves "each cell is 0 or
1" and the grid dimensions: the created grid is all-zero, `apply_seed`
(whether it completes or fails midway) writes only 1, and
`create_next_generation` writes only 0 and 1; none of them changes the
number of rows or any row length. -/
theorem cells_zero_or_one :
    (∀ h w : Int, ∀ row ∈ create_grid h w, ∀ v ∈ row, v = 0) ∧
    (∀ (grid : Grid) (seed : List (Nat × Nat)) (g : Grid), ValidGrid grid →
      apply_seed grid seed = .ok g → ValidGrid g ∧ SameShape g grid) ∧
    (∀ (grid : Grid) (seed : List (Nat × Nat)) (g : Grid), ValidGrid grid →
      apply_seed grid seed = .error g → ValidGrid g ∧ SameShape g grid) ∧
    (∀ (grid : Grid) (kills revives : List (Nat × Nat)) (g : Grid),
      ValidGrid grid → create_next_generation grid kills revives = some g →
      ValidGrid g ∧ SameShape g grid) := by
  refine ⟨?_, ?_, ?_, ?_⟩
  · intro h w row hrow v hv
    have hr : row = List.replicate w.toNat 0 := by
      unfold create_grid at hrow
      rcases List.mem_map.mp hrow with ⟨i, _, hi⟩
      exact hi.symm
    subst hr
    exact List.eq_of_mem_replicate hv
  · intro grid seed g hval hok
    exact (apply_seed_valid seed grid hval).1 g hok
  · intro grid seed g hval herr
    exact (apply_seed_valid seed grid hval).2 g herr
  · intro grid kills revives g hval hsome
    exact create_next_generation_valid grid kills revives g hval hsome

/-- Witness for claim C10: a seed application and a commit on the 1×2 grid
`[[0,0]]`. -/
theorem cells_zero_or_one_witness :
    (ValidGrid ([[1, 0]] : Grid) ∧ SameShape [[1, 0]] [[0, 0]]) ∧
    (ValidGrid ([[0, 1]] : Grid) ∧ SameShape [[0, 1]] [[0, 0]]) := by
  constructor
  · exact cells_zero_or_one.2.1 [[0, 0]] [(0, 0)] [[1, 0]]
      (by unfold ValidGrid; decide) (by rfl)
  · exact cells_zero_or_one.2.2.2 [[0, 0]] [] [(0, 1)] [[0, 1]]
      (by unfold ValidGrid; decide) (by rfl)
end CGL
